import Mathlib

/-!
Verification development for the BBE data-preprocessing scripts
(`Preprocessingv2.py` and `Preprocessingv3.py`).

The Python code is shallowly embedded: records are association lists from
field names to string values, the `datetime.strptime` calls are modelled by
explicit character-list parsers for the exact format strings appearing in the
source, the `random` module's generator (external library code; the spec only
requires a deterministic seeded generator, not a particular one) is modelled
by a deterministic 64-bit linear congruential generator threaded explicitly,
and the paginated HTTP fetch loop is modelled as a fuel-indexed loop over an
abstract transport function.
-/

/-- Numeric value of a decimal digit character. -/
def digVal (c : Char) : Nat := c.toNat - 48

/-- Parse one exact literal character, as a literal in a strptime format. -/
def pLit (c : Char) : List Char → Option (List Char)
  | [] => none
  | x :: rest => if x = c then some rest else none

/-- Parse exactly four decimal digits, the strptime directive for a year. -/
def pY4 : List Char → Option (Nat × List Char)
  | a :: b :: c :: d :: rest =>
    if a.isDigit ∧ b.isDigit ∧ c.isDigit ∧ d.isDigit then
      some (1000 * digVal a + 100 * digVal b + 10 * digVal c + digVal d, rest)
    else none
  | _ => none

/-- Parse one or two decimal digits greedily and require the value to lie in
the closed interval from lo to hi, as the strptime directives for month, day,
hour, minute and second do. -/
def pN2 (lo hi : Nat) : List Char → Option (Nat × List Char)
  | [] => none
  | [a] =>
    if a.isDigit ∧ lo ≤ digVal a ∧ digVal a ≤ hi then some (digVal a, []) else none
  | a :: b :: rest =>
    if a.isDigit then
      if b.isDigit then
        if lo ≤ 10 * digVal a + digVal b ∧ 10 * digVal a + digVal b ≤ hi then
          some (10 * digVal a + digVal b, rest)
        else none
      else
        if lo ≤ digVal a ∧ digVal a ≤ hi then some (digVal a, b :: rest) else none
    else none

/-- Parse one or more whitespace characters, the reading strptime gives a
single space in a format string. -/
def pSpace : List Char → Option (List Char)
  | [] => none
  | c :: rest =>
    if c.isWhitespace then some (rest.dropWhile Char.isWhitespace) else none

/-- Parse one to six fractional-second digits, the strptime %f directive. -/
def pFrac (l : List Char) : Option (List Char) :=
  let ds := l.takeWhile Char.isDigit
  if 1 ≤ ds.length ∧ ds.length ≤ 6 then some (l.dropWhile Char.isDigit) else none

/-- Month number of a lowercased three-letter English month abbreviation. -/
def monthNum (a b c : Char) : Option Nat :=
  if a = 'j' ∧ b = 'a' ∧ c = 'n' then some 1
  else if a = 'f' ∧ b = 'e' ∧ c = 'b' then some 2
  else if a = 'm' ∧ b = 'a' ∧ c = 'r' then some 3
  else if a = 'a' ∧ b = 'p' ∧ c = 'r' then some 4
  else if a = 'm' ∧ b = 'a' ∧ c = 'y' then some 5
  else if a = 'j' ∧ b = 'u' ∧ c = 'n' then some 6
  else if a = 'j' ∧ b = 'u' ∧ c = 'l' then some 7
  else if a = 'a' ∧ b = 'u' ∧ c = 'g' then some 8
  else if a = 's' ∧ b = 'e' ∧ c = 'p' then some 9
  else if a = 'o' ∧ b = 'c' ∧ c = 't' then some 10
  else if a = 'n' ∧ b = 'o' ∧ c = 'v' then some 11
  else if a = 'd' ∧ b = 'e' ∧ c = 'c' then some 12
  else none

/-- Parse a case-insensitive abbreviated month name, the strptime %b directive. -/
def pMonthAbbr : List Char → Option (Nat × List Char)
  | a :: b :: c :: rest =>
    match monthNum a.toLower b.toLower c.toLower with
    | some m => some (m, rest)
    | none => none
  | _ => none

/-- Parse a case-insensitive AM or PM marker, the strptime %p directive. -/
def pAmPm : List Char → Option (Bool × List Char)
  | a :: b :: rest =>
    if (a.toLower = 'a' ∨ a.toLower = 'p') ∧ b.toLower = 'm' then
      some (a.toLower = 'p', rest)
    else none
  | _ => none

/-- Gregorian leap-year test, as the datetime library validates dates. -/
def isLeap (y : Nat) : Bool := y % 4 = 0 ∧ (y % 100 ≠ 0 ∨ y % 400 = 0)

/-- Number of days in a month, as the datetime library validates dates. -/
def daysInMonth (y m : Nat) : Nat :=
  if m = 2 then (if isLeap y then 29 else 28)
  else if m = 4 ∨ m = 6 ∨ m = 9 ∨ m = 11 then 30
  else 31

/-- Validity of a parsed calendar date, as datetime construction enforces. -/
def validYMD (y m d : Nat) : Bool := 1 ≤ y ∧ d ≤ daysInMonth y m

/-- Parse a year-month-day prefix in the form Y-m-d, returning the three
values and the rest of the input. -/
def pYMD (l : List Char) : Option (Nat × Nat × Nat × List Char) :=
  match pY4 l with
  | none => none
  | some (y, r1) =>
    match pLit '-' r1 with
    | none => none
    | some r2 =>
      match pN2 1 12 r2 with
      | none => none
      | some (m, r3) =>
        match pLit '-' r3 with
        | none => none
        | some r4 =>
          match pN2 1 31 r4 with
          | none => none
          | some (d, r5) => some (y, m, d, r5)

/-- Parse a 24-hour time of day in the form H:M:S, returning the rest. -/
def pHMS (l : List Char) : Option (List Char) :=
  match pN2 0 23 l with
  | none => none
  | some (_, r1) =>
    match pLit ':' r1 with
    | none => none
    | some r2 =>
      match pN2 0 59 r2 with
      | none => none
      | some (_, r3) =>
        match pLit ':' r3 with
        | none => none
        | some r4 =>
          match pN2 0 59 r4 with
          | none => none
          | some (_, r5) => some r5

/-- Parse the shared ISO prefix Y-m-dTH:M:S of both ISO formats. -/
def pIsoCore (l : List Char) : Option (Nat × Nat × Nat × List Char) :=
  match pYMD l with
  | none => none
  | some (y, m, d, r1) =>
    match pLit 'T' r1 with
    | none => none
    | some r2 =>
      match pHMS r2 with
      | none => none
      | some r3 => some (y, m, d, r3)

/-- Model of strptime with format Y-m-dTH:M:S.f, the first format of
Preprocessingv2's filter, returning the parsed year on a full match. -/
def parseIsoFrac (l : List Char) : Option Nat :=
  match pIsoCore l with
  | none => none
  | some (y, m, d, r1) =>
    match pLit '.' r1 with
    | none => none
    | some r2 =>
      match pFrac r2 with
      | none => none
      | some r3 => if r3 = [] ∧ validYMD y m d then some y else none

/-- Model of strptime with format Y-m-dTH:M:S, the single format of
Preprocessingv3's filter, returning the parsed year on a full match. -/
def parseIsoNoFrac (l : List Char) : Option Nat :=
  match pIsoCore l with
  | none => none
  | some (y, m, d, r1) => if r1 = [] ∧ validYMD y m d then some y else none

/-- Model of strptime with format m/d/Y, the second format of
Preprocessingv2's filter, returning the parsed year on a full match. -/
def parseSlash (l : List Char) : Option Nat :=
  match pN2 1 12 l with
  | none => none
  | some (m, r1) =>
    match pLit '/' r1 with
    | none => none
    | some r2 =>
      match pN2 1 31 r2 with
      | none => none
      | some (d, r3) =>
        match pLit '/' r3 with
        | none => none
        | some r4 =>
          match pY4 r4 with
          | none => none
          | some (y, r5) => if r5 = [] ∧ validYMD y m d then some y else none

/-- Parse a 12-hour time of day in the form I:M:S, returning the rest. -/
def pIMS (l : List Char) : Option (List Char) :=
  match pN2 1 12 l with
  | none => none
  | some (_, r1) =>
    match pLit ':' r1 with
    | none => none
    | some r2 =>
      match pN2 0 59 r2 with
      | none => none
      | some (_, r3) =>
        match pLit ':' r3 with
        | none => none
        | some r4 =>
          match pN2 0 59 r4 with
          | none => none
          | some (_, r5) => some r5

/-- Model of strptime with format Y b d I:M:S p, the third format of
Preprocessingv2's filter, returning the parsed year on a full match. -/
def parseMonPm (l : List Char) : Option Nat :=
  match pY4 l with
  | none => none
  | some (y, r1) =>
    match pSpace r1 with
    | none => none
    | some r2 =>
      match pMonthAbbr r2 with
      | none => none
      | some (m, r3) =>
        match pSpace r3 with
        | none => none
        | some r4 =>
          match pN2 1 31 r4 with
          | none => none
          | some (d, r5) =>
            match pSpace r5 with
            | none => none
            | some r6 =>
              match pIMS r6 with
              | none => none
              | some r7 =>
                match pSpace r7 with
                | none => none
                | some r8 =>
                  match pAmPm r8 with
                  | none => none
                  | some (_, r9) =>
                    if r9 = [] ∧ validYMD y m d then some y else none

/-- Everything before the first dot of a string, modelling the Python
expression that splits a date string on the dot and keeps the first part. -/
def truncDot (l : List Char) : List Char := l.takeWhile (fun c => c ≠ '.')

/-- Try the three date formats of Preprocessingv2's filter in their source
order, stopping at the first success. -/
def tryFormatsV2 (l : List Char) : Option Nat :=
  match parseIsoFrac l with
  | some y => some y
  | none =>
    match parseSlash l with
    | some y => some y
    | none => parseMonPm l

/-- A record: an association list from field names to string values. -/
abbrev Rec := List (String × String)

/-- Field access on a record, none when the field is absent. -/
def recGet (entry : Rec) (k : String) : Option String :=
  match entry.find? (fun p => p.1 = k) with
  | some p => some p.2
  | none => none

/-- The per-record keep decision of Preprocessingv2's filter_by_date_range:
skip a record missing the date column, otherwise truncate its date string at
the first dot, try the three formats in order, and keep the record exactly
when some format parses and the year lies in the inclusive range. -/
def keepV2 (start_year end_year : Int) (date_column : String) (entry : Rec) : Bool :=
  match recGet entry date_column with
  | none => false
  | some s =>
    match tryFormatsV2 (truncDot s.data) with
    | none => false
    | some y => decide (start_year ≤ (y : Int) ∧ (y : Int) ≤ end_year)

/-- Embedding of DataProcessor.filter_by_date_range from Preprocessingv2.py:
the records passing the per-record keep decision, in input order. -/
def filter_by_date_range (data : List Rec) (start_year end_year : Int)
    (date_column : String) : List Rec :=
  data.filter (keepV2 start_year end_year date_column)

/-- The per-record keep decision of the filter stage of process_data in
Preprocessingv3.py: a missing date_rptd field (KeyError) or a failed parse of
the dot-truncated string against the single ISO format (ValueError) skips the
record; otherwise it is kept exactly when its year lies in 2013 to 2019. -/
def keepV3 (entry : Rec) : Bool :=
  match recGet entry "date_rptd" with
  | none => false
  | some s =>
    match parseIsoNoFrac (truncDot s.data) with
    | none => false
    | some y => decide (2013 ≤ y ∧ y ≤ 2019)

/-- Embedding of the filter stage of process_data from Preprocessingv3.py. -/
def process_data_filter (raw : List Rec) : List Rec := raw.filter keepV3

/-- One step of the pseudo-random generator, a 64-bit linear congruential
generator. The Python random module is library code outside this repository;
per the spec only seeded determinism of the generator is contractual, not its
exact output stream, so any fixed deterministic generator models it. -/
def nextRand (s : Nat) : Nat :=
  (6364136223846793005 * s + 1442695040888963407) % 18446744073709551616

/-- The generator state installed by seeding, modelling random.seed. -/
def seedState (seed : Nat) : Nat := nextRand (seed % 18446744073709551616)

/-- Selection sampling without replacement, modelling random.sample: draw k
elements by repeatedly picking a pseudo-random position of the remaining pool
and removing it, threading the generator state explicitly. -/
def fySampleSt {α : Type} (g : Nat) (l : List α) : Nat → List α × Nat
  | 0 => ([], g)
  | k + 1 =>
    if h : l.length = 0 then ([], g)
    else
      let g' := nextRand g
      let j := g' % l.length
      let p := fySampleSt g' (l.eraseIdx j) k
      (l.get ⟨j, Nat.mod_lt _ (Nat.pos_of_ne_zero h)⟩ :: p.1, p.2)

/-- Embedding of DataProcessor.random_sample from Preprocessingv2.py with the
ambient generator state g made explicit: the call first reseeds the global
generator from seed (discarding g, as random.seed does), returns the whole
list when its length is at most sample_size, and otherwise samples exactly
sample_size records without replacement. Returns the final generator state
alongside the result. -/
def random_sampleSt {α : Type} (g : Nat) (data : List α) (sample_size seed : Nat) :
    List α × Nat :=
  let g0 := seedState seed
  if data.length ≤ sample_size then (data, g0)
  else fySampleSt g0 data sample_size

/-- The record list returned by DataProcessor.random_sample, run from a fixed
ambient generator state. -/
def random_sample {α : Type} (data : List α) (sample_size seed : Nat) : List α :=
  (random_sampleSt 0 data sample_size seed).1

/-- Embedding of the loop of DataProcessor.fetch_data_with_pagination from
Preprocessingv2.py. The transport req gives, for an offset and a zero-based
retry index, either some page of records or none for a transport failure
(requests raising RequestException). The loop state is the current offset,
the retry counter for the current page, the accumulated records and the
number of requests issued so far; fuel bounds the number of loop iterations,
with none also returned if fuel runs out. On a successful request the loop
returns the accumulator when the page is empty, returns the accumulator
extended by the page when the page is shorter than limit, and otherwise
extends the accumulator and advances the offset by limit with the retry
counter reset; on a failure it retries until retries reach max_retries, at
which point the whole fetch returns none. -/
def fetchLoop {R : Type} (req : Nat → Nat → Option (List R)) (limit max_retries : Nat) :
    Nat → Nat → Nat → List R → Nat → Option (List R × Nat)
  | 0, _, _, _, _ => none
  | fuel + 1, offset, retries, acc, reqs =>
    if retries < max_retries then
      match req offset retries with
      | some batch =>
        if batch.length = 0 then some (acc, reqs + 1)
        else if batch.length < limit then some (acc ++ batch, reqs + 1)
        else fetchLoop req limit max_retries fuel (offset + limit) 0 (acc ++ batch) (reqs + 1)
      | none =>
        if max_retries ≤ retries + 1 then none
        else fetchLoop req limit max_retries fuel offset (retries + 1) acc (reqs + 1)
    else none

/-- Embedding of DataProcessor.fetch_data_with_pagination: run the fetch loop
from offset zero with an empty accumulator, returning the fetched records and
the number of requests issued, or none on failure. -/
def fetch_data_with_pagination {R : Type} (req : Nat → Nat → Option (List R))
    (limit max_retries fuel : Nat) : Option (List R × Nat) :=
  fetchLoop req limit max_retries fuel 0 0 [] 0

/-- Concatenation of the n + 1 successive pages starting at a given offset,
with offsets advancing by limit: the expected output of a fetch that sees n
full pages followed by one short page. -/
def pagesAcc {R : Type} (pages : Nat → List R) (limit : Nat) : Nat → Nat → List R
  | offset, 0 => pages offset
  | offset, n + 1 => pages offset ++ pagesAcc pages limit (offset + limit) n

/-! Inversion and suffix lemmas for the parser primitives. -/

lemma pLit_inv {c : Char} {l r : List Char} (h : pLit c l = some r) : l = c :: r := by
  rcases l with _ | ⟨x, rest⟩
  · simp [pLit] at h
  · simp only [pLit] at h
    split at h
    · rename_i hx
      simp only [Option.some.injEq] at h
      rw [hx, h]
    · simp at h

lemma pY4_inv {l r : List Char} {y : Nat} (h : pY4 l = some (y, r)) :
    ∃ a b c d, l = a :: b :: c :: d :: r ∧
      a.isDigit = true ∧ b.isDigit = true ∧ c.isDigit = true ∧ d.isDigit = true := by
  rcases l with _ | ⟨a, _ | ⟨b, _ | ⟨c, _ | ⟨d, rest⟩⟩⟩⟩
  · simp [pY4] at h
  · simp [pY4] at h
  · simp [pY4] at h
  · simp [pY4] at h
  · simp only [pY4] at h
    split at h
    · rename_i hc
      simp only [Option.some.injEq, Prod.mk.injEq] at h
      exact ⟨a, b, c, d, by rw [← h.2], hc.1, hc.2.1, hc.2.2.1, hc.2.2.2⟩
    · simp at h

lemma pN2_inv {lo hi v : Nat} {l r : List Char} (h : pN2 lo hi l = some (v, r)) :
    ∃ a, a.isDigit = true ∧ (l = a :: r ∨ ∃ b, b.isDigit = true ∧ l = a :: b :: r) := by
  rcases l with _ | ⟨a, _ | ⟨b, rest⟩⟩
  · simp [pN2] at h
  · simp only [pN2] at h
    split at h
    · rename_i hc
      simp only [Option.some.injEq, Prod.mk.injEq] at h
      exact ⟨a, hc.1, Or.inl (by rw [← h.2])⟩
    · simp at h
  · simp only [pN2] at h
    split at h
    · rename_i ha
      split at h
      · rename_i hb
        split at h
        · simp only [Option.some.injEq, Prod.mk.injEq] at h
          exact ⟨a, ha, Or.inr ⟨b, hb, by rw [← h.2]⟩⟩
        · simp at h
      · rename_i hb
        split at h
        · simp only [Option.some.injEq, Prod.mk.injEq] at h
          exact ⟨a, ha, Or.inl (by rw [← h.2])⟩
        · simp at h
    · simp at h

lemma pSpace_inv {l r : List Char} (h : pSpace l = some r) :
    ∃ w rest, l = w :: rest ∧ w.isWhitespace = true := by
  rcases l with _ | ⟨w, rest⟩
  · simp [pSpace] at h
  · simp only [pSpace] at h
    split at h
    · rename_i hw
      exact ⟨w, rest, rfl, hw⟩
    · simp at h

lemma pLit_suffix {c : Char} {l r : List Char} (h : pLit c l = some r) : r <:+ l := by
  rw [pLit_inv h]
  exact ⟨[c], rfl⟩

lemma pY4_suffix {l r : List Char} {y : Nat} (h : pY4 l = some (y, r)) : r <:+ l := by
  obtain ⟨a, b, c, d, ht, -⟩ := pY4_inv h
  exact ⟨[a, b, c, d], ht.symm⟩

lemma pN2_suffix {lo hi v : Nat} {l r : List Char} (h : pN2 lo hi l = some (v, r)) :
    r <:+ l := by
  obtain ⟨a, -, hcase⟩ := pN2_inv h
  rcases hcase with h' | ⟨b, -, h'⟩
  · exact ⟨[a], h'.symm⟩
  · exact ⟨[a, b], h'.symm⟩

lemma pHMS_suffix {l r : List Char} (h : pHMS l = some r) : r <:+ l := by
  cases h1 : pN2 0 23 l
  · simp [pHMS, h1] at h
  rename_i p1
  obtain ⟨v1, r1⟩ := p1
  simp only [pHMS, h1] at h
  cases h2 : pLit ':' r1
  · simp [h2] at h
  rename_i r2
  simp only [h2] at h
  cases h3 : pN2 0 59 r2
  · simp [h3] at h
  rename_i p3
  obtain ⟨v3, r3⟩ := p3
  simp only [h3] at h
  cases h4 : pLit ':' r3
  · simp [h4] at h
  rename_i r4
  simp only [h4] at h
  cases h5 : pN2 0 59 r4
  · simp [h5] at h
  rename_i p5
  obtain ⟨v5, r5⟩ := p5
  simp only [h5, Option.some.injEq] at h
  subst h
  exact ((((pN2_suffix h5).trans (pLit_suffix h4)).trans (pN2_suffix h3)).trans
    (pLit_suffix h2)).trans (pN2_suffix h1)

lemma pYMD_suffix {l r : List Char} {y m d : Nat} (h : pYMD l = some (y, m, d, r)) :
    r <:+ l := by
  cases h1 : pY4 l
  · simp [pYMD, h1] at h
  rename_i p1
  obtain ⟨y1, r1⟩ := p1
  simp only [pYMD, h1] at h
  cases h2 : pLit '-' r1
  · simp [h2] at h
  rename_i r2
  simp only [h2] at h
  cases h3 : pN2 1 12 r2
  · simp [h3] at h
  rename_i p3
  obtain ⟨m3, r3⟩ := p3
  simp only [h3] at h
  cases h4 : pLit '-' r3
  · simp [h4] at h
  rename_i r4
  simp only [h4] at h
  cases h5 : pN2 1 31 r4
  · simp [h5] at h
  rename_i p5
  obtain ⟨d5, r5⟩ := p5
  simp only [h5, Option.some.injEq, Prod.mk.injEq] at h
  obtain ⟨-, -, -, hr⟩ := h
  subst hr
  exact ((((pN2_suffix h5).trans (pLit_suffix h4)).trans (pN2_suffix h3)).trans
    (pLit_suffix h2)).trans (pY4_suffix h1)

/-- The first five characters of any input accepted by the Y-m-d prefix
parser: four digits and a dash. -/
lemma pYMD_shape {l r : List Char} {y m d : Nat} (h : pYMD l = some (y, m, d, r)) :
    ∃ a b c d2 rest, l = a :: b :: c :: d2 :: '-' :: rest ∧
      a.isDigit = true ∧ b.isDigit = true ∧ c.isDigit = true ∧ d2.isDigit = true := by
  cases h1 : pY4 l
  · simp [pYMD, h1] at h
  rename_i p1
  obtain ⟨y1, r1⟩ := p1
  simp only [pYMD, h1] at h
  cases h2 : pLit '-' r1
  · simp [h2] at h
  rename_i r2
  obtain ⟨a, b, c, d2, ht, ha, hb, hc, hd⟩ := pY4_inv h1
  exact ⟨a, b, c, d2, r2, by rw [ht, pLit_inv h2], ha, hb, hc, hd⟩

lemma pIsoCore_inv {l r : List Char} {y m d : Nat} (h : pIsoCore l = some (y, m, d, r)) :
    ∃ r1 r2, pYMD l = some (y, m, d, r1) ∧ pLit 'T' r1 = some r2 ∧ pHMS r2 = some r := by
  cases h1 : pYMD l
  · simp [pIsoCore, h1] at h
  rename_i p1
  obtain ⟨y1, m1, d1, r1⟩ := p1
  simp only [pIsoCore, h1] at h
  cases h2 : pLit 'T' r1
  · simp [h2] at h
  rename_i r2
  simp only [h2] at h
  cases h3 : pHMS r2
  · simp [h3] at h
  rename_i r3
  simp only [h3, Option.some.injEq, Prod.mk.injEq] at h
  obtain ⟨hy, hm, hd, hr⟩ := h
  subst hy; subst hm; subst hd; subst hr
  exact ⟨r1, r2, rfl, h2, h3⟩

lemma pIsoCore_suffix {l r : List Char} {y m d : Nat}
    (h : pIsoCore l = some (y, m, d, r)) : r <:+ l := by
  obtain ⟨r1, r2, h1, h2, h3⟩ := pIsoCore_inv h
  exact ((pHMS_suffix h3).trans (pLit_suffix h2)).trans (pYMD_suffix h1)

/-- A successful parse of the first format of Preprocessingv2 requires a
literal dot somewhere in the input. -/
lemma parseIsoFrac_mem_dot {l : List Char} {y : Nat} (h : parseIsoFrac l = some y) :
    ('.' : Char) ∈ l := by
  cases h1 : pIsoCore l
  · simp [parseIsoFrac, h1] at h
  rename_i p1
  obtain ⟨y1, m1, d1, r1⟩ := p1
  simp only [parseIsoFrac, h1] at h
  cases h2 : pLit '.' r1
  · simp [h2] at h
  rename_i r2
  have hmem : ('.' : Char) ∈ r1 := by
    rw [pLit_inv h2]
    exact List.mem_cons_self _ _
  exact (pIsoCore_suffix h1).subset hmem

/-- The first format of Preprocessingv2's filter never parses the
dot-truncated date string: the truncation removes every dot, and the format
demands one. -/
lemma parseIsoFrac_truncDot (l : List Char) : parseIsoFrac (truncDot l) = none := by
  cases h : parseIsoFrac (truncDot l)
  · rfl
  rename_i y
  exfalso
  have hdot := parseIsoFrac_mem_dot h
  have := List.mem_takeWhile_imp hdot
  simp at this

lemma parseIsoNoFrac_shape {t : List Char} {y : Nat} (h : parseIsoNoFrac t = some y) :
    ∃ a b c d r, t = a :: b :: c :: d :: '-' :: r ∧
      a.isDigit = true ∧ b.isDigit = true ∧ c.isDigit = true ∧ d.isDigit = true := by
  cases h1 : pIsoCore t
  · simp [parseIsoNoFrac, h1] at h
  rename_i p1
  obtain ⟨y1, m1, d1, r1⟩ := p1
  obtain ⟨r2, r3, hymd, -, -⟩ := pIsoCore_inv h1
  exact pYMD_shape hymd

lemma parseSlash_shape {t : List Char} {y : Nat} (h : parseSlash t = some y) :
    (∃ a r, t = a :: '/' :: r ∧ a.isDigit = true) ∨
    (∃ a b r, t = a :: b :: '/' :: r ∧ a.isDigit = true ∧ b.isDigit = true) := by
  cases h1 : pN2 1 12 t
  · simp [parseSlash, h1] at h
  rename_i p1
  obtain ⟨m1, r1⟩ := p1
  simp only [parseSlash, h1] at h
  cases h2 : pLit '/' r1
  · simp [h2] at h
  rename_i r2
  have hr1 : r1 = '/' :: r2 := pLit_inv h2
  obtain ⟨a, ha, hcase⟩ := pN2_inv h1
  rcases hcase with h1' | ⟨b, hb, h1'⟩
  · exact Or.inl ⟨a, r2, by rw [h1', hr1], ha⟩
  · exact Or.inr ⟨a, b, r2, by rw [h1', hr1], ha, hb⟩

lemma parseMonPm_shape {t : List Char} {y : Nat} (h : parseMonPm t = some y) :
    ∃ a b c d w r, t = a :: b :: c :: d :: w :: r ∧ w.isWhitespace = true := by
  cases h1 : pY4 t
  · simp [parseMonPm, h1] at h
  rename_i p1
  obtain ⟨y1, r1⟩ := p1
  simp only [parseMonPm, h1] at h
  cases h2 : pSpace r1
  · simp [h2] at h
  rename_i r2
  obtain ⟨a, b, c, d, ht, -, -, -, -⟩ := pY4_inv h1
  obtain ⟨w, rest, hr1, hw⟩ := pSpace_inv h2
  exact ⟨a, b, c, d, w, rest, by rw [ht, hr1], hw⟩

/-- The slash format and the fractionless ISO format accept disjoint inputs:
the second or third character of a slash date is a slash where the ISO format
demands a digit. -/
lemma parseSlash_iso_disjoint {t : List Char} {y y' : Nat}
    (hs : parseSlash t = some y) (hi : parseIsoNoFrac t = some y') : False := by
  obtain ⟨a, b, c, d, r, ht, ha, hb, hc, hd⟩ := parseIsoNoFrac_shape hi
  rcases parseSlash_shape hs with ⟨x, r2, ht2, hx⟩ | ⟨x, x2, r2, ht2, hx, hx2⟩
  · rw [ht] at ht2
    simp only [List.cons.injEq] at ht2
    exact absurd (ht2.2.1 ▸ hb) (by decide)
  · rw [ht] at ht2
    simp only [List.cons.injEq] at ht2
    exact absurd (ht2.2.2.1 ▸ hc) (by decide)

/-- The month-name format and the fractionless ISO format accept disjoint
inputs: the fifth character is whitespace in one and a dash in the other. -/
lemma parseMonPm_iso_disjoint {t : List Char} {y y' : Nat}
    (hm : parseMonPm t = some y) (hi : parseIsoNoFrac t = some y') : False := by
  obtain ⟨a, b, c, d, r, ht, -, -, -, -⟩ := parseIsoNoFrac_shape hi
  obtain ⟨a2, b2, c2, d2, w, r2, ht2, hw⟩ := parseMonPm_shape hm
  rw [ht] at ht2
  simp only [List.cons.injEq] at ht2
  exact absurd (ht2.2.2.2.2.1.symm ▸ hw) (by decide)

/-- Whenever Preprocessingv2's format chain accepts a truncated date string,
Preprocessingv3's single ISO format rejects that same string. -/
lemma tryFormatsV2_iso_none {s : List Char} {y : Nat}
    (h : tryFormatsV2 (truncDot s) = some y) : parseIsoNoFrac (truncDot s) = none := by
  cases hi : parseIsoNoFrac (truncDot s)
  · rfl
  rename_i y'
  exfalso
  simp only [tryFormatsV2, parseIsoFrac_truncDot] at h
  cases hs : parseSlash (truncDot s)
  · simp only [hs] at h
    exact parseMonPm_iso_disjoint h hi
  · rename_i z
    exact parseSlash_iso_disjoint hs hi

/-- C8: the earlier multi-format filter and the later single-format draft do
NOT produce identical accept/reject outcomes: the record with date value
01/15/2014 and year range 2013 to 2019 is accepted by Preprocessingv2's
filter and rejected by Preprocessingv3's. -/
theorem claim_C8_variants_counterexample :
    keepV2 2013 2019 "date_rptd" [("date_rptd", "01/15/2014")] = true ∧
    keepV3 [("date_rptd", "01/15/2014")] = false := ⟨rfl, rfl⟩

/-- C8 amended: the two variants never both accept a record; they agree on a
record exactly when both reject it, because Preprocessingv2's live formats
(slash and month-name; its ISO-with-fraction format is dead) accept inputs
disjoint from the fractionless ISO format of Preprocessingv3. -/
theorem claim_C8_variants_disjoint (e : Rec) (y0 y1 : Int) :
    keepV2 y0 y1 "date_rptd" e = false ∨ keepV3 e = false := by
  cases hk : keepV2 y0 y1 "date_rptd" e
  · exact Or.inl rfl
  right
  cases hg : recGet e "date_rptd"
  · simp [keepV3, hg]
  rename_i s
  simp only [keepV2, hg] at hk
  cases hf : tryFormatsV2 (truncDot s.data)
  · simp [hf] at hk
  rename_i yv
  have hiso : parseIsoNoFrac (truncDot s.data) = none := tryFormatsV2_iso_none hf
  simp [keepV3, hg, hiso]

/-- C10: the first candidate format of Preprocessingv2's filter can never
parse successfully, because every date string is truncated at its first dot
before parsing while the format requires a literal dot; hence every kept
record was parsed by the slash format or the month-name format. -/
theorem claim_C10_iso_frac_dead :
    (∀ s : String, parseIsoFrac (truncDot s.data) = none) ∧
    (∀ (e : Rec) (y0 y1 : Int) (f : String), keepV2 y0 y1 f e = true →
      ∃ s, recGet e f = some s ∧
        (parseSlash (truncDot s.data) ≠ none ∨ parseMonPm (truncDot s.data) ≠ none)) := by
  constructor
  · intro s
    exact parseIsoFrac_truncDot s.data
  · intro e y0 y1 f hk
    cases hg : recGet e f
    · simp [keepV2, hg] at hk
    rename_i s
    refine ⟨s, rfl, ?_⟩
    simp only [keepV2, hg] at hk
    cases hf : tryFormatsV2 (truncDot s.data)
    · simp [hf] at hk
    rename_i yv
    simp only [tryFormatsV2, parseIsoFrac_truncDot] at hf
    cases hs : parseSlash (truncDot s.data)
    · right
      rw [hs] at hf
      have hf2 : parseMonPm (truncDot s.data) = some yv := hf
      simp [hf2]
    · left
      simp

/-- Witness for C10 at a concrete slash-formatted record kept by the filter. -/
theorem claim_C10_iso_frac_dead_witness :
    keepV2 2013 2019 "date_rptd" [("date_rptd", "01/15/2014")] = true ∧
    ∃ s, recGet [("date_rptd", "01/15/2014")] "date_rptd" = some s ∧
      (parseSlash (truncDot s.data) ≠ none ∨ parseMonPm (truncDot s.data) ≠ none) :=
  ⟨rfl, claim_C10_iso_frac_dead.2 [("date_rptd", "01/15/2014")] 2013 2019 "date_rptd" rfl⟩

/-- C2: the date-range filter returns a subsequence of its input (order kept,
no duplicates introduced), and every kept record's date field is present and
parses, after dot truncation, to a year inside the inclusive bounds. The
embedding is pure, so the input list and its records are left unmodified by
construction. -/
theorem claim_C2_filter_shape (data : List Rec) (y0 y1 : Int) (f : String)
    (h : y0 ≤ y1) :
    (filter_by_date_range data y0 y1 f).Sublist data ∧
    ∀ e ∈ filter_by_date_range data y0 y1 f,
      ∃ s y, recGet e f = some s ∧ tryFormatsV2 (truncDot s.data) = some y ∧
        y0 ≤ (y : Int) ∧ (y : Int) ≤ y1 := by
  constructor
  · exact List.filter_sublist data
  · intro e he
    rw [filter_by_date_range, List.mem_filter] at he
    have hk := he.2
    cases hg : recGet e f
    · simp [keepV2, hg] at hk
    rename_i s
    simp only [keepV2, hg] at hk
    cases hf : tryFormatsV2 (truncDot s.data)
    · simp [hf] at hk
    rename_i yv
    simp only [hf, decide_eq_true_eq] at hk
    exact ⟨s, yv, rfl, hf, hk.1, hk.2⟩

/-- Witness for C2 at a concrete one-record list and the bounds 2013, 2019. -/
theorem claim_C2_filter_shape_witness :
    ((2013 : Int) ≤ 2019) ∧
    ((filter_by_date_range [[("date_rptd", "01/15/2014")]] 2013 2019
        "date_rptd").Sublist [[("date_rptd", "01/15/2014")]] ∧
      ∀ e ∈ filter_by_date_range [[("date_rptd", "01/15/2014")]] 2013 2019 "date_rptd",
        ∃ s y, recGet e "date_rptd" = some s ∧
          tryFormatsV2 (truncDot s.data) = some y ∧
          (2013 : Int) ≤ (y : Int) ∧ (y : Int) ≤ (2019 : Int)) :=
  ⟨by decide, claim_C2_filter_shape [[("date_rptd", "01/15/2014")]] 2013 2019 "date_rptd"
    (by decide)⟩

/-- C9: applying the date-range filter twice with the same bounds equals
applying it once. -/
theorem claim_C9_filter_idempotent (data : List Rec) (y0 y1 : Int) (f : String) :
    filter_by_date_range (filter_by_date_range data y0 y1 f) y0 y1 f =
      filter_by_date_range data y0 y1 f := by
  unfold filter_by_date_range
  induction data with
  | nil => rfl
  | cons e t ih =>
    cases hk : keepV2 y0 y1 f e
    · simp [List.filter_cons, hk, ih]
    · simp [List.filter_cons, hk, ih]

/-- C7: in both filter variants, a record whose date field is missing
(KeyError) or whose date value fails every attempted parse (ValueError) is
silently excluded from the output and does not abort processing of the
surrounding records, which are filtered exactly as they would be without it. -/
theorem claim_C7_per_record_skip (xs ys : List Rec) (r : Rec) (y0 y1 : Int) (f : String)
    (h3 : recGet r "date_rptd" = none ∨
      ∃ s, recGet r "date_rptd" = some s ∧ parseIsoNoFrac (truncDot s.data) = none)
    (h2 : recGet r f = none ∨
      ∃ s, recGet r f = some s ∧ tryFormatsV2 (truncDot s.data) = none) :
    process_data_filter (xs ++ r :: ys) =
        process_data_filter xs ++ process_data_filter ys ∧
    filter_by_date_range (xs ++ r :: ys) y0 y1 f =
        filter_by_date_range xs y0 y1 f ++ filter_by_date_range ys y0 y1 f := by
  have hk3 : keepV3 r = false := by
    rcases h3 with hg | ⟨s, hg, hp⟩
    · simp [keepV3, hg]
    · simp [keepV3, hg, hp]
  have hk2 : keepV2 y0 y1 f r = false := by
    rcases h2 with hg | ⟨s, hg, hp⟩
    · simp [keepV2, hg]
    · simp [keepV2, hg, hp]
  constructor
  · simp [process_data_filter, List.filter_append, List.filter_cons, hk3]
  · simp [filter_by_date_range, List.filter_append, List.filter_cons, hk2]

/-- Witness for C7: a record with no date field sits between two good
records; the batch is processed and only the bad record is dropped. -/
theorem claim_C7_per_record_skip_witness :
    (recGet [("area", "077")] "date_rptd" = none ∨
      ∃ s, recGet [("area", "077")] "date_rptd" = some s ∧
        parseIsoNoFrac (truncDot s.data) = none) ∧
    process_data_filter
        [[("date_rptd", "2014-03-01T00:00:00.000")], [("area", "077")],
         [("date_rptd", "2016-05-02T01:02:03.000")]] =
      process_data_filter [[("date_rptd", "2014-03-01T00:00:00.000")]] ++
        process_data_filter [[("date_rptd", "2016-05-02T01:02:03.000")]] ∧
    filter_by_date_range
        [[("date_rptd", "2014-03-01T00:00:00.000")], [("area", "077")],
         [("date_rptd", "2016-05-02T01:02:03.000")]] 2013 2019 "date_rptd" =
      filter_by_date_range [[("date_rptd", "2014-03-01T00:00:00.000")]]
          2013 2019 "date_rptd" ++
        filter_by_date_range [[("date_rptd", "2016-05-02T01:02:03.000")]]
          2013 2019 "date_rptd" :=
  ⟨Or.inl rfl,
    (claim_C7_per_record_skip [[("date_rptd", "2014-03-01T00:00:00.000")]]
      [[("date_rptd", "2016-05-02T01:02:03.000")]] [("area", "077")]
      2013 2019 "date_rptd" (Or.inl rfl) (Or.inl rfl)).1,
    (claim_C7_per_record_skip [[("date_rptd", "2014-03-01T00:00:00.000")]]
      [[("date_rptd", "2016-05-02T01:02:03.000")]] [("area", "077")]
      2013 2019 "date_rptd" (Or.inl rfl) (Or.inl rfl)).2⟩

/-- C1 is a code bug, and this theorem records what the code actually does at
the claim's own inputs. Scenario A fails on Preprocessingv2: its filter drops
all three ISO-dated records (its ISO format is unreachable after dot
truncation), returning the empty list instead of the second record; the
scenario holds on Preprocessingv3. Of the three strings the claim says
normalize to year 2014, each is accepted by one variant and dropped by the
other: no filter in the repository keeps all three. -/
theorem claim_C1_date_normalization_code_eval :
    filter_by_date_range
        [[("date_rptd", "2012-05-01T00:00:00.000")],
         [("date_rptd", "2015-07-04T10:00:00.000")],
         [("date_rptd", "2020-01-01T00:00:00.000")]] 2013 2019 "date_rptd" = [] ∧
    process_data_filter
        [[("date_rptd", "2012-05-01T00:00:00.000")],
         [("date_rptd", "2015-07-04T10:00:00.000")],
         [("date_rptd", "2020-01-01T00:00:00.000")]] =
      [[("date_rptd", "2015-07-04T10:00:00.000")]] ∧
    process_data_filter [[("date_rptd", "01/15/2014")]] = [] ∧
    process_data_filter [[("date_rptd", "2014 Mar 01 11:59:00 PM")]] = [] ∧
    filter_by_date_range [[("date_rptd", "2014-03-01T00:00:00.000Z")]]
        2013 2019 "date_rptd" = [] ∧
    filter_by_date_range [[("date_rptd", "01/15/2014")]] 2013 2019 "date_rptd" =
      [[("date_rptd", "01/15/2014")]] ∧
    filter_by_date_range [[("date_rptd", "2014 Mar 01 11:59:00 PM")]]
        2013 2019 "date_rptd" = [[("date_rptd", "2014 Mar 01 11:59:00 PM")]] ∧
    process_data_filter [[("date_rptd", "2014-03-01T00:00:00.000Z")]] =
      [[("date_rptd", "2014-03-01T00:00:00.000Z")]] :=
  ⟨rfl, rfl, rfl, rfl, rfl, rfl, rfl, rfl⟩

/-! Lemmas about the seeded sampler. -/

lemma get_cons_eraseIdx_perm {α : Type} :
    ∀ (l : List α) (j : Nat) (h : j < l.length),
      (l.get ⟨j, h⟩ :: l.eraseIdx j).Perm l
  | [], j, h => by simp at h
  | a :: t, 0, _ => by simp [List.eraseIdx]
  | a :: t, j + 1, h => by
    have h' : j < t.length := by simpa using h
    have ih := get_cons_eraseIdx_perm t j h'
    show (t.get ⟨j, h'⟩ :: a :: t.eraseIdx j).Perm (a :: t)
    exact (List.Perm.swap a _ _).trans (ih.cons a)

lemma fySampleSt_length {α : Type} :
    ∀ (k g : Nat) (l : List α), ((fySampleSt g l k).1).length = min k l.length
  | 0, g, l => by simp [fySampleSt]
  | k + 1, g, l => by
    by_cases h : l.length = 0
    · simp [fySampleSt, h]
    · have hpos : 0 < l.length := Nat.pos_of_ne_zero h
      have hj : nextRand g % l.length < l.length := Nat.mod_lt _ hpos
      have ih := fySampleSt_length k (nextRand g) (l.eraseIdx (nextRand g % l.length))
      have hlen : (l.eraseIdx (nextRand g % l.length)).length + 1 = l.length :=
        List.length_eraseIdx_add_one hj
      simp only [fySampleSt, dif_neg h, List.length_cons, ih]
      omega

lemma fySampleSt_subperm {α : Type} :
    ∀ (k g : Nat) (l : List α), ((fySampleSt g l k).1).Subperm l
  | 0, g, l => by
    simpa [fySampleSt] using List.nil_subperm
  | k + 1, g, l => by
    by_cases h : l.length = 0
    · simpa [fySampleSt, h] using List.nil_subperm
    · have hpos : 0 < l.length := Nat.pos_of_ne_zero h
      have hj : nextRand g % l.length < l.length := Nat.mod_lt _ hpos
      have ih := fySampleSt_subperm k (nextRand g) (l.eraseIdx (nextRand g % l.length))
      have hunfold : (fySampleSt g l (k + 1)).1 =
          l.get ⟨nextRand g % l.length, hj⟩ ::
            (fySampleSt (nextRand g) (l.eraseIdx (nextRand g % l.length)) k).1 := by
        simp [fySampleSt, h]
      rw [hunfold]
      have step := (List.subperm_cons (l.get ⟨nextRand g % l.length, hj⟩)).mpr ih
      exact step.trans (get_cons_eraseIdx_perm l _ hj).subperm

/-- C3: the sampler returns exactly min of the sample size and the input
length many records, drawn from distinct positions of the input (its output
is a sublist of a permutation of the input), and when the input is no longer
than the sample size it returns the input itself unchanged, for any seed. -/
theorem claim_C3_sample_size_membership {α : Type} (data : List α) (n seed : Nat) :
    (random_sample data n seed).length = min n data.length ∧
    (random_sample data n seed).Subperm data ∧
    (data.length ≤ n → random_sample data n seed = data) := by
  by_cases h : data.length ≤ n
  · refine ⟨?_, ?_, fun _ => ?_⟩
    · simp only [random_sample, random_sampleSt, if_pos h]
      omega
    · simp only [random_sample, random_sampleSt, if_pos h]
      exact List.Subperm.refl data
    · simp only [random_sample, random_sampleSt, if_pos h]
  · refine ⟨?_, ?_, fun hc => absurd hc h⟩
    · simp only [random_sample, random_sampleSt, if_neg h]
      exact fySampleSt_length n (seedState seed) data
    · simp only [random_sample, random_sampleSt, if_neg h]
      exact fySampleSt_subperm n (seedState seed) data

/-- Witness for C3 at a three-record list with sample size five. -/
theorem claim_C3_sample_size_membership_witness :
    (random_sample [10, 20, 30] 5 7).length = min 5 3 ∧
    (random_sample [10, 20, 30] 5 7).Subperm [10, 20, 30] ∧
    ([10, 20, 30] : List Nat).length ≤ 5 ∧
    random_sample ([10, 20, 30] : List Nat) 5 7 = [10, 20, 30] :=
  ⟨(claim_C3_sample_size_membership [10, 20, 30] 5 7).1,
   (claim_C3_sample_size_membership [10, 20, 30] 5 7).2.1,
   by decide,
   (claim_C3_sample_size_membership [10, 20, 30] 5 7).2.2 (by decide)⟩

/-- C4: the sampler is deterministic in its arguments: whatever the ambient
generator state was before the call, reseeding from the given seed makes two
invocations with identical record sequence, sample size and seed return the
identical record list. -/
theorem claim_C4_sample_determinism {α : Type} (g1 g2 : Nat) (data : List α)
    (sample_size seed : Nat) :
    (random_sampleSt g1 data sample_size seed).1 =
      (random_sampleSt g2 data sample_size seed).1 := rfl

/-! Lemmas about the paginated fetch loop. -/

lemma fetchLoop_full_pages {R : Type} (pages : Nat → List R) (limit max_retries : Nat)
    (hl : 0 < limit) (hm : 0 < max_retries) :
    ∀ (n offset : Nat) (acc : List R) (reqs fuel : Nat),
      (∀ k, k < n → (pages (offset + k * limit)).length = limit) →
      (pages (offset + n * limit)).length < limit →
      n < fuel →
      fetchLoop (fun off _ => some (pages off)) limit max_retries fuel offset 0 acc reqs =
        some (acc ++ pagesAcc pages limit offset n, reqs + n + 1)
  | 0, offset, acc, reqs, fuel, hfull, hlast, hfuel => by
    obtain ⟨f, rfl⟩ : ∃ f, fuel = f + 1 := ⟨fuel - 1, by omega⟩
    have hlast0 : (pages offset).length < limit := by simpa using hlast
    simp only [fetchLoop, hm, ite_true]
    by_cases hz : (pages offset).length = 0
    · have hnil : pages offset = [] := List.length_eq_zero.mp hz
      simp [hz, pagesAcc, hnil]
    · simp [hz, hlast0, pagesAcc]
  | n + 1, offset, acc, reqs, fuel, hfull, hlast, hfuel => by
    obtain ⟨f, rfl⟩ : ∃ f, fuel = f + 1 := ⟨fuel - 1, by omega⟩
    have hfirst : (pages offset).length = limit := by simpa using hfull 0 (by omega)
    have hz : ¬((pages offset).length = 0) := by omega
    have hlt : ¬((pages offset).length < limit) := by omega
    have hfull2 : ∀ k, k < n → (pages (offset + limit + k * limit)).length = limit := by
      intro k hk
      have hh := hfull (k + 1) (by omega)
      have harith : offset + (k + 1) * limit = offset + limit + k * limit := by ring
      rwa [harith] at hh
    have hlast2 : (pages (offset + limit + n * limit)).length < limit := by
      have harith : offset + (n + 1) * limit = offset + limit + n * limit := by ring
      rwa [harith] at hlast
    have ih := fetchLoop_full_pages pages limit max_retries hl hm n (offset + limit)
      (acc ++ pages offset) (reqs + 1) f hfull2 hlast2 (by omega)
    simp only [fetchLoop, hm, ite_true, hz, ite_false, hlt]
    rw [ih]
    have harr : reqs + 1 + n + 1 = reqs + (n + 1) + 1 := by omega
    rw [harr, List.append_assoc]
    rfl

/-- C5: the fetcher requests pages at offsets 0, limit, 2 times limit and so
on, accumulating them in order, and terminates exactly at the first short or
empty page: if the first n pages are full and page n is short, it returns all
records of pages 0 through n after exactly n + 1 requests. -/
theorem claim_C5_pagination_termination {R : Type} (pages : Nat → List R)
    (limit max_retries n fuel : Nat) (hl : 0 < limit) (hm : 0 < max_retries)
    (hfull : ∀ k, k < n → (pages (k * limit)).length = limit)
    (hlast : (pages (n * limit)).length < limit)
    (hfuel : n < fuel) :
    fetch_data_with_pagination (fun off _ => some (pages off)) limit max_retries fuel =
      some (pagesAcc pages limit 0 n, n + 1) := by
  have hfull0 : ∀ k, k < n → (pages (0 + k * limit)).length = limit := by
    intro k hk
    simpa using hfull k hk
  have hlast0 : (pages (0 + n * limit)).length < limit := by simpa using hlast
  have h := fetchLoop_full_pages pages limit max_retries hl hm n 0 [] 0 fuel
    hfull0 hlast0 hfuel
  simpa [fetch_data_with_pagination] using h

/-- Witness for C5, scenario C: page one returns 1000 records, page two
returns none; the fetch stops after exactly two requests with 1000 records. -/
theorem claim_C5_pagination_termination_witness :
    fetch_data_with_pagination
        (fun off _ => some (if off = 0 then List.replicate 1000 (0 : Nat) else []))
        1000 3 2 = some (List.replicate 1000 0, 2) := by
  have hfull : ∀ k, k < 1 →
      ((fun off => if off = 0 then List.replicate 1000 (0 : Nat) else [])
        (k * 1000)).length = 1000 := by
    intro k hk
    have hk0 : k = 0 := by omega
    subst hk0
    show (if (0 * 1000 : Nat) = 0 then List.replicate 1000 (0 : Nat) else []).length = 1000
    rw [if_pos (by omega : (0 * 1000 : Nat) = 0), List.length_replicate]
  have hlast : ((fun off => if off = 0 then List.replicate 1000 (0 : Nat) else [])
      (1 * 1000)).length < 1000 := by
    show (if (1 * 1000 : Nat) = 0 then List.replicate 1000 (0 : Nat) else []).length < 1000
    rw [if_neg (by omega : ¬((1 * 1000 : Nat) = 0)), List.length_nil]
    omega
  have h := claim_C5_pagination_termination
    (fun off => if off = 0 then List.replicate 1000 (0 : Nat) else [])
    1000 3 1 2 (by omega) (by omega) hfull hlast (by omega)
  have hconcat : pagesAcc
      (fun off => if off = 0 then List.replicate 1000 (0 : Nat) else []) 1000 0 1 =
      List.replicate 1000 0 := by
    show (if (0 : Nat) = 0 then List.replicate 1000 (0 : Nat) else []) ++
        (if (0 + 1000 : Nat) = 0 then List.replicate 1000 (0 : Nat) else []) =
      List.replicate 1000 0
    rw [if_pos rfl, if_neg (by omega : ¬((0 + 1000 : Nat) = 0)), List.append_nil]
  conv_rhs => rw [← hconcat]
  exact h

lemma fetchLoop_retry_exhaust {R : Type} (req : Nat → Nat → Option (List R))
    (limit max_retries offset : Nat)
    (hfail : ∀ i, i < max_retries → req offset i = none) :
    ∀ (fuel r : Nat) (acc : List R) (reqs : Nat), r < max_retries →
      fetchLoop req limit max_retries fuel offset r acc reqs = none
  | 0, r, acc, reqs, hr => by simp [fetchLoop]
  | fuel + 1, r, acc, reqs, hr => by
    simp only [fetchLoop, hr, ite_true, hfail r hr]
    by_cases hend : max_retries ≤ r + 1
    · simp [hend]
    · simp only [hend, ite_false]
      exact fetchLoop_retry_exhaust req limit max_retries offset hfail fuel (r + 1)
        acc (reqs + 1) (by omega)

/-- C6: when every attempt at the current page fails at the transport level,
the whole fetch returns the failure value none, whatever records had already
been accumulated: no partial result is returned. -/
theorem claim_C6_retry_exhaustion_failure {R : Type} (req : Nat → Nat → Option (List R))
    (limit max_retries fuel offset : Nat) (acc : List R) (reqs : Nat)
    (hm : 0 < max_retries)
    (hfail : ∀ i, i < max_retries → req offset i = none) :
    fetchLoop req limit max_retries fuel offset 0 acc reqs = none :=
  fetchLoop_retry_exhaust req limit max_retries offset hfail fuel 0 acc reqs hm

/-- Witness for C6, scenario D: with three allowed attempts all failing at
the page at offset 1000, a fetch that had already accumulated one record
returns none, not the partial accumulation. -/
theorem claim_C6_retry_exhaustion_failure_witness :
    (0 : Nat) < 3 ∧
    fetchLoop (fun _ _ => (none : Option (List Nat))) 1000 3 5 1000 0 [0] 1 = none :=
  ⟨by decide,
   claim_C6_retry_exhaustion_failure _ 1000 3 5 1000 [0] 1 (by decide) (fun i _ => rfl)⟩
